import Mathlib

/-!
Consent synchroniser (`ahasend-gtm.js`).

A shallow embedding of the script: the document is an ordered forest of
nodes under a head and an optional body, the event queue is a list, the
cookie store is a list of cookies, and every handler of the script is a
function on the page state.

Conventions of the embedding:

* the page state is the state seen by the handlers, that is after lines
  11-19 have run: the event queue is defined (an undefined queue is created
  empty on line 12, so it is the empty list here);
* the document is an HTML document: `document.head` exists, `document.body`
  may not exist yet, and the head and body elements themselves carry no id;
* `Date.now()`, `window.location.hostname` and the readiness of the document
  are fields of the page state that the environment owns.
-/

namespace AhasendGtm

/-! ## Constants (lines 2-9) -/

def TAG_ID : String := "GTM-KCQ9JNVZ"
def CONSENT_KEY : String := "cookieConsent"
def CONSENT_GRANTED : String := "true"
def GTM_SRC_PREFIX : String := "https://www.googletagmanager.com"
def GTM_SCRIPT_SRC : String := GTM_SRC_PREFIX ++ "/gtm.js?id=" ++ TAG_ID
def NOSCRIPT_ID : String := "ahasend-gtm-noscript"
def SCRIPT_ID : String := "ahasend-gtm-script"

/-- The value of the attribute selector on line 101: `GTM_SRC_PREFIX/gtm.js`. -/
def GTM_JS_SELECTOR_VALUE : String := GTM_SRC_PREFIX ++ "/gtm.js"

/-- The iframe address of line 72. -/
def GTM_NS_SRC : String := GTM_SRC_PREFIX ++ "/ns.html?id=" ++ TAG_ID

/-! ## Strings -/

/-- Result of `String.prototype.replace(pat, rep)` with a string pattern: only the
first occurrence is replaced. Works on the characters of the subject. -/
def replaceFirstChars (pat rep : List Char) : List Char → List Char
  | [] => if pat.isEmpty then rep else []
  | c :: cs =>
    if pat.isPrefixOf (c :: cs) then rep ++ (c :: cs).drop pat.length
    else c :: replaceFirstChars pat rep cs

def replaceFirst (s pat rep : String) : String :=
  String.mk (replaceFirstChars pat.data rep.data s.data)

/-- Test of the selector operator `^=`: the attribute value starts with `p`. -/
def startsWith (s p : String) : Bool := p.data.isPrefixOf s.data

/-! ## Document -/

abbrev Attrs := List (String × String)

/-- An ordered forest of DOM nodes: empty, or a first node followed by its later
siblings. An element carries its tag name, its attributes and its children. -/
inductive Forest where
  | nil : Forest
  | text (data : String) (rest : Forest) : Forest
  | element (tag : String) (attrs : Attrs) (children : Forest) (rest : Forest) : Forest
  deriving DecidableEq, Repr

/-- Tag and attributes of an element. -/
structure Elem where
  tag : String
  attrs : Attrs
  deriving DecidableEq, Repr

def Elem.id (e : Elem) : Option String := e.attrs.lookup "id"
def Elem.src (e : Elem) : Option String := e.attrs.lookup "src"

/-- The selector `script[src^="GTM_SRC_PREFIX/gtm.js"]` of line 101. -/
def Elem.isGtmScript (e : Elem) : Bool :=
  e.tag == "script" &&
    match e.src with
    | some s => startsWith s GTM_JS_SELECTOR_VALUE
    | none => false

/-- The selector `script[src="GTM_SCRIPT_SRC"]` of line 115. -/
def Elem.isLoaderScript (e : Elem) : Bool :=
  e.tag == "script" && e.src == some GTM_SCRIPT_SRC

namespace Forest

/-- `a.append b`: the nodes of `a` followed by the nodes of `b` (as siblings). -/
def append : Forest → Forest → Forest
  | nil, g => g
  | text d rest, g => text d (append rest g)
  | element t a c rest, g => element t a c (append rest g)

/-- All elements of the forest in document (pre-)order. -/
def elements : Forest → List Elem
  | nil => []
  | text _ rest => elements rest
  | element t a c rest => ⟨t, a⟩ :: (elements c ++ elements rest)

/-- The ids of the elements of the forest, in document order. -/
def ids (f : Forest) : List String := f.elements.filterMap Elem.id

/-- Removes every element matched by `q`, together with its subtree:
`querySelectorAll(q).forEach(e => e.remove())`. -/
def removeAll (q : Elem → Bool) : Forest → Forest
  | nil => nil
  | text d rest => text d (removeAll q rest)
  | element t a c rest =>
    if q ⟨t, a⟩ then removeAll q rest
    else element t a (removeAll q c) (removeAll q rest)

/-- Removes the first element, in document order, whose id is `x`, with its
subtree: `getElementById(x).remove()` inside this forest. -/
def removeFirstById (x : String) : Forest → Forest
  | nil => nil
  | text d rest => text d (removeFirstById x rest)
  | element t a c rest =>
    if Elem.id ⟨t, a⟩ = some x then rest
    else if x ∈ c.ids then element t a (removeFirstById x c) rest
    else element t a c (removeFirstById x rest)

end Forest

/-! ## Event queue and bridge function -/

/-- A primitive value stored in a record of the event queue. -/
inductive Prim where
  | str (s : String)
  | bool (b : Bool)
  | num (n : Nat)
  deriving DecidableEq, Repr

/-- An object literal: its fields in source order. -/
abbrev Record := List (String × Prim)

/-- An argument of a call of the bridge function. -/
inductive Arg where
  | prim (p : Prim)
  | record (r : Record)
  deriving DecidableEq, Repr

/-- An entry of the event queue: an object literal, or the `arguments` object
that the stub bridge pushes (line 17). -/
inductive Entry where
  | record (r : Record)
  | arguments (args : List Arg)
  deriving DecidableEq, Repr

/-- The value of `window.gtag`: not a function, the stub of lines 16-18, or a
function of a third party (its body is not part of this script; a call of it
is recorded and nothing more). -/
inductive Bridge where
  | notCallable
  | stub
  | external
  deriving DecidableEq, Repr

/-- `typeof window.gtag === 'function'`. -/
def Bridge.callable : Bridge → Bool
  | .notCallable => false
  | .stub => true
  | .external => true

/-- Lines 15-19: the stub is installed when the bridge is not a function. -/
def initGtag (b : Bridge) : Bridge :=
  if b.callable then b else Bridge.stub

/-! ## Cookies -/

/-- How a cookie is bound to hosts: to the host that set it only (no `domain`
attribute), or to a domain and its subdomains (`domain=d`). -/
inductive CookieScope where
  | hostOnly
  | domain (d : String)
  deriving DecidableEq, Repr

/-- A cookie of the store visible to the document. A cookie is identified by its
name, its scope and its path. -/
structure Cookie where
  name : String
  scope : CookieScope
  path : String
  value : String
  deriving DecidableEq, Repr

abbrev Jar := List Cookie

/-- Effect on the store of assigning to `document.cookie` a cookie with
`Max-Age=0`: the cookie with the same name, scope and path, if any, is evicted;
every other cookie stays. -/
def Jar.expire (name : String) (scope : CookieScope) (path : String) (jar : Jar) : Jar :=
  jar.filter (fun c => !(c.name == name && c.scope == scope && c.path == path))

/-! ## Local storage -/

/-- Outcome of `window.localStorage.getItem(key)`: a value, `null` when the key
is absent, or an exception (storage not accessible). -/
inductive StorageRead where
  | value (v : Option String)
  | throws
  deriving DecidableEq, Repr

/-- Lines 45-51: an exception is caught and becomes `null`. -/
def safeGetLocalStorage : StorageRead → Option String
  | .value v => v
  | .throws => none

/-! ## Page state -/

/-- The tree of `document`: the children of the head and, once it exists, the
children of the body. -/
structure Document where
  /-- Children of `document.head`. -/
  head : Forest
  /-- Children of `document.body`; `none` while the body does not exist. -/
  body : Option Forest
  deriving DecidableEq, Repr

namespace Document

/-- Elements of the document in document order: head first, then body. -/
def elements (d : Document) : List Elem :=
  d.head.elements ++ (d.body.getD Forest.nil).elements

/-- Ids of the document in document order. -/
def ids (d : Document) : List String := d.head.ids ++ (d.body.getD Forest.nil).ids

/-- Whether `document.getElementById(x)` finds an element. -/
def hasId (d : Document) (x : String) : Bool := decide (x ∈ d.ids)

/-- Whether `document.querySelector(q)` finds an element. -/
def hasMatch (d : Document) (q : Elem → Bool) : Bool := d.elements.any q

/-- `document.querySelectorAll(q).forEach(e => e.remove())`. -/
def removeAll (d : Document) (q : Elem → Bool) : Document :=
  { head := d.head.removeAll q, body := d.body.map (Forest.removeAll q) }

/-- `document.getElementById(x).remove()`: the first element with id `x` is the
first one of the head or, when the head has none, the first one of the body. -/
def removeFirstById (d : Document) (x : String) : Document :=
  if x ∈ d.head.ids then { d with head := d.head.removeFirstById x }
  else { d with body := d.body.map (Forest.removeFirstById x) }

/-- The statement `const e = document.getElementById(x); if (e) { e.remove(); }`. -/
def removeIfPresent (d : Document) (x : String) : Document :=
  if d.hasId x then d.removeFirstById x else d

/-- `document.head.appendChild(n)` for a node `n` that is not in the document. -/
def appendToHead (d : Document) (n : Forest) : Document :=
  { d with head := d.head.append n }

end Document

/-- A one-time `DOMContentLoaded` listener registered by the script: the
reconciliation itself (line 157) or the deferred insertion of the fallback
element (lines 85-93). -/
inductive Listener where
  | applyConsentState
  | deferredNoscript
  deriving DecidableEq, Repr

structure Page where
  /-- The tree of `document`. -/
  document : Document
  /-- Whether `document.readyState` is `'loading'`. -/
  loading : Bool
  /-- Value of `window.location.hostname`. -/
  hostname : String
  /-- Value returned by `Date.now()`. -/
  now : Nat
  /-- The event queue `window.dataLayer`. -/
  dataLayer : List Entry
  /-- The bridge function `window.gtag`. -/
  gtag : Bridge
  /-- Argument lists of the calls of the bridge function made so far. -/
  gtagCalls : List (List Arg)
  /-- Strings assigned to `document.cookie` so far. -/
  cookieWrites : List String
  /-- The cookie store. -/
  jar : Jar
  /-- Pending one-time `DOMContentLoaded` listeners, in order of registration. -/
  onDomContentLoaded : List Listener
  deriving DecidableEq, Repr

/-- Assignment of `text` to `document.cookie`, where `text` describes a cookie
named `name` with `Max-Age=0`, the given scope and path. -/
def Page.expireCookie (p : Page) (text name : String) (scope : CookieScope) (path : String) :
    Page :=
  { p with cookieWrites := p.cookieWrites ++ [text], jar := p.jar.expire name scope path }

/-! ## The script -/

/-- The object literal of lines 25-28. -/
def consentRecord (granted : Bool) : Entry :=
  Entry.record [("event", Prim.str "cookie_consent_analytics"), ("consent_given", Prim.bool granted)]

/-- The arguments of the call on lines 31-33. -/
def consentUpdateArgs (status : String) : List Arg :=
  [Arg.prim (Prim.str "consent"), Arg.prim (Prim.str "update"),
   Arg.record [("analytics_storage", Prim.str status)]]

/-- A call `window.gtag(...args)` of a bridge that is a function. -/
def callGtag (args : List Arg) (p : Page) : Page :=
  match p.gtag with
  | .notCallable => p
  | .stub => { p with gtagCalls := p.gtagCalls ++ [args],
                      dataLayer := p.dataLayer ++ [Entry.arguments args] }
  | .external => { p with gtagCalls := p.gtagCalls ++ [args] }

/-- Lines 21-35. -/
def pushConsentEvent (granted : Bool) (p : Page) : Page :=
  let status := if granted then "granted" else "denied"
  let p := { p with dataLayer := p.dataLayer ++ [consentRecord granted] }
  if p.gtag.callable then callGtag (consentUpdateArgs status) p else p

/-- Lines 37-43. -/
def cookiesToClear : List String :=
  ["_ga", "_gid", "_gat", "_gcl_au", "_ga_" ++ replaceFirst TAG_ID "GTM-" ""]

/-- The string of line 55. -/
def hostCookieText (name domain : String) : String :=
  name ++ "=; Max-Age=0; path=/; domain=" ++ domain ++ "; SameSite=Lax;"

/-- The string of line 56. -/
def plainCookieText (name : String) : String :=
  name ++ "=; Max-Age=0; path=/; SameSite=Lax;"

/-- Lines 53-57. -/
def clearCookie (p : Page) (name : String) : Page :=
  let domain := p.hostname
  let p := p.expireCookie (hostCookieText name domain) name (CookieScope.domain domain) "/"
  p.expireCookie (plainCookieText name) name CookieScope.hostOnly "/"

/-- Lines 59-64. -/
def removeNoscript (p : Page) : Page :=
  { p with document := p.document.removeIfPresent NOSCRIPT_ID }

/-- The element built on lines 71-80, followed by the siblings `rest`. -/
def noscriptNode (rest : Forest) : Forest :=
  Forest.element "noscript" [("id", NOSCRIPT_ID)]
    (Forest.element "iframe"
      [("src", GTM_NS_SRC), ("height", "0"), ("width", "0"),
       ("style", "display: none; visibility: hidden;")]
      Forest.nil Forest.nil)
    rest

/-- The element built on lines 126-129. -/
def scriptNode : Forest :=
  Forest.element "script" [("id", SCRIPT_ID), ("async", ""), ("src", GTM_SCRIPT_SRC)]
    Forest.nil Forest.nil

/-- Lines 66-95. `document.body.insertBefore(noscript, document.body.firstChild || null)`
puts the element before all children of the body. -/
def insertNoscript (p : Page) : Page :=
  if p.document.hasId NOSCRIPT_ID then p
  else
    match p.document.body with
    | some b => { p with document := { p.document with body := some (noscriptNode b) } }
    | none => { p with onDomContentLoaded := p.onDomContentLoaded ++ [Listener.deferredNoscript] }

/-- The listener of lines 87-91. With no body, `document.body.insertBefore`
throws inside the listener and nothing has been changed: `none`. -/
def deferredNoscript (p : Page) : Option Page :=
  if p.document.hasId NOSCRIPT_ID then some p
  else
    match p.document.body with
    | some b => some { p with document := { p.document with body := some (noscriptNode b) } }
    | none => none

/-- Lines 97-112. -/
def removeGtm (p : Page) : Page :=
  let p := pushConsentEvent false p
  let p := { p with document := p.document.removeAll Elem.isGtmScript }
  let p := { p with document := p.document.removeIfPresent SCRIPT_ID }
  let p := removeNoscript p
  cookiesToClear.foldl clearCookie p

/-- The object literal of lines 119-122. -/
def gtmStartRecord (now : Nat) : Entry :=
  Entry.record [("gtm.start", Prim.num now), ("event", Prim.str "gtm.js")]

/-- Lines 114-133. -/
def loadGtm (p : Page) : Page :=
  if p.document.hasId SCRIPT_ID || p.document.hasMatch Elem.isLoaderScript then p
  else
    let p := { p with dataLayer := p.dataLayer ++ [gtmStartRecord p.now] }
    let p := pushConsentEvent true p
    let p := { p with document := p.document.appendToHead scriptNode }
    insertNoscript p

/-- Lines 135-142; `read` is the outcome of reading the consent key. -/
def applyConsentState (read : StorageRead) (p : Page) : Page :=
  let consent := safeGetLocalStorage read
  if consent = some CONSENT_GRANTED then loadGtm p else removeGtm p

/-! ## Events -/

/-- What can happen to the page after the script has been evaluated. Every
event that lets a handler read the consent key carries the outcome `read`
that the storage gives at that time. -/
inductive Event where
  /-- A `storage` event on `window` for the key `key` (`null` when the storage was cleared). -/
  | storage (key : Option String) (read : StorageRead)
  /-- A `visibilitychange` event on the document; `hidden` is `document.hidden`. -/
  | visibilitychange (hidden : Bool) (read : StorageRead)
  /-- The document has been parsed: `DOMContentLoaded`. -/
  | domContentLoaded (read : StorageRead)
  /-- The parser creates the body element. -/
  | bodyParsed
  /-- Time passes: `Date.now()` becomes `t`. -/
  | clock (t : Nat)
  deriving DecidableEq, Repr

def Event.read : Event → StorageRead
  | .storage _ r => r
  | .visibilitychange _ r => r
  | .domContentLoaded r => r
  | .bodyParsed => StorageRead.throws
  | .clock _ => StorageRead.throws

/-- What the browser does to the page before it calls the listeners of the event.
At `DOMContentLoaded` the document stops loading, its body exists (the parser
creates one when the markup has none) and the one-time listeners are taken off. -/
def Event.prepare : Event → Page → Page
  | .domContentLoaded _, p =>
    if p.loading then
      { p with loading := false, onDomContentLoaded := [],
               document := { p.document with body := some (p.document.body.getD Forest.nil) } }
    else p
  | .bodyParsed, p =>
    if p.loading && p.document.body.isNone then
      { p with document := { p.document with body := some Forest.nil } }
    else p
  | .clock t, p => { p with now := t }
  | _, p => p

/-- The listeners of the script that the event calls, in order: lines 144-148,
lines 150-154, and the pending one-time listeners. -/
def Event.listeners : Event → Page → List Listener
  | .storage key _, _ => if key = some CONSENT_KEY then [Listener.applyConsentState] else []
  | .visibilitychange hidden _, _ => if !hidden then [Listener.applyConsentState] else []
  | .domContentLoaded _, p => if p.loading then p.onDomContentLoaded else []
  | .bodyParsed, _ => []
  | .clock _, _ => []

/-- Body of a listener. An exception inside a listener is reported by the browser
and the page stays as the listener left it. -/
def Listener.run (read : StorageRead) : Listener → Page → Page
  | .applyConsentState, p => AhasendGtm.applyConsentState read p
  | .deferredNoscript, p => (AhasendGtm.deferredNoscript p).getD p

/-- Whether a read of the consent key means granted (line 137). -/
def isGranted (read : StorageRead) : Bool :=
  decide (safeGetLocalStorage read = some CONSENT_GRANTED)

/-- A page between two events, with the consent state of the last evaluation of
`applyConsentState` (`none` before the first one). -/
structure Settled where
  page : Page
  lastRead : Option Bool
  deriving DecidableEq, Repr

def fire (read : StorageRead) (s : Settled) (l : Listener) : Settled :=
  { page := l.run read s.page,
    lastRead := if l = Listener.applyConsentState then some (isGranted read) else s.lastRead }

/-- Evaluation of the script (lines 11-19 and 144-160) on a page; `read` is what
the storage gives if the reconciliation runs at once. -/
def start (read : StorageRead) (p : Page) : Settled :=
  let p := { p with gtag := initGtag p.gtag }
  if p.loading then
    { page := { p with onDomContentLoaded := p.onDomContentLoaded ++ [Listener.applyConsentState] },
      lastRead := none }
  else fire read { page := p, lastRead := none } Listener.applyConsentState

def step (s : Settled) (e : Event) : Settled :=
  (e.listeners s.page).foldl (fire e.read) { page := e.prepare s.page, lastRead := s.lastRead }

def run (s : Settled) (es : List Event) : Settled := es.foldl step s

/-! ## Sample pages -/

/-- A page that is still loading, whose body has not been parsed yet. -/
def earlyPage : Page :=
  { document :=
      { head := Forest.element "title" [] (Forest.text "Docs" Forest.nil) Forest.nil,
        body := none },
    loading := true, hostname := "docs.ahasend.com", now := 1000,
    dataLayer := [], gtag := Bridge.notCallable, gtagCalls := [], cookieWrites := [],
    jar := [], onDomContentLoaded := [] }

/-- A parsed page with some content and no tag installed. -/
def plainPage : Page :=
  { document :=
      { head := Forest.element "title" [] (Forest.text "Docs" Forest.nil) Forest.nil,
        body := some (Forest.element "div" [("id", "app")]
                  (Forest.element "p" [] (Forest.text "hello" Forest.nil) Forest.nil) Forest.nil) },
    loading := false, hostname := "docs.ahasend.com", now := 1000,
    dataLayer := [], gtag := Bridge.stub, gtagCalls := [], cookieWrites := [],
    jar := [], onDomContentLoaded := [] }

def granted : StorageRead := StorageRead.value (some "true")
def denied : StorageRead := StorageRead.value (some "false")

/-- A parsed page on which the tag is installed, next to the loader of another
container, with cookies of the vendor in the store. -/
def installedPage : Page :=
  { document :=
      { head := Forest.element "title" [] (Forest.text "Docs" Forest.nil)
            (Forest.element "script"
              [("src", "https://www.googletagmanager.com/gtm.js?id=GTM-OTHER")] Forest.nil
              scriptNode),
        body := some (noscriptNode (Forest.element "div" [("id", "app")]
                  (Forest.element "p" [] (Forest.text "hello" Forest.nil) Forest.nil)
                  Forest.nil)) },
    loading := false, hostname := "docs.ahasend.com", now := 2000,
    dataLayer := [], gtag := Bridge.stub, gtagCalls := [], cookieWrites := [],
    jar := [⟨"_ga", CookieScope.domain "ahasend.com", "/", "GA1.1.1"⟩,
            ⟨"_ga", CookieScope.hostOnly, "/", "GA1.1.2"⟩,
            ⟨"_gid", CookieScope.domain "docs.ahasend.com", "/", "GA1.1.3"⟩,
            ⟨"session", CookieScope.hostOnly, "/", "abc"⟩],
    onDomContentLoaded := [] }

/-! ## Predicates used in the statements -/

/-- No tag artifact is installed: no element with the id of the tag script, no
script element whose source starts with the address of the vendor's `gtm.js`,
no element with the id of the fallback element. -/
def Document.clean (d : Document) : Bool :=
  !d.hasId SCRIPT_ID && !d.hasMatch Elem.isGtmScript && !d.hasId NOSCRIPT_ID

/-- Whether the store holds a cookie named `n`. -/
def Jar.hasName (jar : Jar) (n : String) : Bool := jar.any (fun c => c.name == n)

/-- Whether the two writes of `clearCookie` on host `host` evict the cookie `c`:
its name is in the fixed list, its path is `/`, and it is bound to the host only
or to the domain `host`. -/
def clearedOn (host : String) (c : Cookie) : Bool :=
  decide (c.name ∈ cookiesToClear) && c.path == "/" &&
    (c.scope == CookieScope.hostOnly || c.scope == CookieScope.domain host)

/-- The document once the fallback element has been put before the children of the
body, which happens when the body exists and no element has the id yet (the test
and the insertion shared by lines 67-83 and 88-90). -/
def Document.withFallback (d : Document) : Document :=
  if d.hasId NOSCRIPT_ID then d
  else
    match d.body with
    | some b => { d with body := some (noscriptNode b) }
    | none => d

/-- The tag script agrees with the last read of the flag: at most one element has
its id, one has it when the last read was granted, and otherwise no element has
it and no script element has the loader address. At most one element has the id
of the fallback element. -/
def ScriptSynced (s : Settled) : Prop :=
  s.page.document.ids.count SCRIPT_ID ≤ 1 ∧
    s.page.document.ids.count NOSCRIPT_ID ≤ 1 ∧
    (s.lastRead = some true → SCRIPT_ID ∈ s.page.document.ids) ∧
    (s.lastRead ≠ some true →
      SCRIPT_ID ∉ s.page.document.ids ∧
        ∀ e ∈ s.page.document.elements, Elem.isLoaderScript e = false)

/-- The fallback element agrees with the last read of the flag, on a page whose body
exists and where no insertion of the fallback element is pending. -/
def FallbackSynced (s : Settled) : Prop :=
  s.page.document.body.isSome = true ∧
    Listener.deferredNoscript ∉ s.page.onDomContentLoaded ∧
    (NOSCRIPT_ID ∈ s.page.document.ids ↔ s.lastRead = some true)

/-! ## Lemmas on forests -/

namespace Forest

theorem elements_append (a b : Forest) :
    (a.append b).elements = a.elements ++ b.elements := by
  induction a with
  | nil => rfl
  | text d rest ih => simpa [append, elements] using ih
  | element t a c rest _ ih => simp [append, elements, ih]

theorem ids_append (a b : Forest) : (a.append b).ids = a.ids ++ b.ids := by
  simp [ids, elements_append]

theorem ids_element (t : String) (a : Attrs) (c rest : Forest) :
    (element t a c rest).ids = (Elem.id ⟨t, a⟩).toList ++ (c.ids ++ rest.ids) := by
  cases h : Elem.id ⟨t, a⟩ <;> simp [ids, elements, List.filterMap_cons, h]

theorem ids_text (d : String) (rest : Forest) : (text d rest).ids = rest.ids := rfl

/-- No element that `q` matches is left after `removeAll q`. -/
theorem removeAll_none_left (q : Elem → Bool) (f : Forest) :
    ∀ e ∈ (f.removeAll q).elements, q e = false := by
  induction f with
  | nil => simp [removeAll, elements]
  | text d rest ih => simpa [removeAll, elements] using ih
  | element t a c rest ihc ihr =>
    by_cases h : q ⟨t, a⟩ = true
    · simpa [removeAll, h] using ihr
    · intro e he
      simp only [removeAll, h, elements, List.mem_cons, List.mem_append] at he
      rcases he with rfl | he | he
      · simpa using h
      · exact ihc e he
      · exact ihr e he

/-- `removeAll` only takes elements away. -/
theorem removeAll_sublist (q : Elem → Bool) (f : Forest) :
    (f.removeAll q).elements.Sublist f.elements := by
  induction f with
  | nil => simp [removeAll]
  | text d rest ih => simpa [removeAll, elements] using ih
  | element t a c rest ihc ihr =>
    by_cases h : q ⟨t, a⟩ = true
    · simp only [removeAll, h, elements, if_true]
      exact (ihr.trans (List.sublist_append_right _ _)).trans (List.sublist_cons_self _ _)
    · simp only [removeAll, h, elements]
      exact (ihc.append ihr).cons₂ _

/-- `removeAll` changes nothing when nothing matches. -/
theorem removeAll_unchanged (q : Elem → Bool) (f : Forest)
    (h : ∀ e ∈ f.elements, q e = false) : f.removeAll q = f := by
  induction f with
  | nil => rfl
  | text d rest ih => simp [removeAll, ih (by simpa [elements] using h)]
  | element t a c rest ihc ihr =>
    simp only [elements, List.mem_cons, List.mem_append] at h
    have h0 : q ⟨t, a⟩ = false := h _ (Or.inl rfl)
    simp [removeAll, h0, ihc (fun e he => h e (Or.inr (Or.inl he))),
      ihr (fun e he => h e (Or.inr (Or.inr he)))]

/-- `removeFirstById` only takes elements away. -/
theorem removeFirstById_sublist (x : String) (f : Forest) :
    (f.removeFirstById x).elements.Sublist f.elements := by
  induction f with
  | nil => simp [removeFirstById]
  | text d rest ih => simpa [removeFirstById, elements] using ih
  | element t a c rest ihc ihr =>
    simp only [removeFirstById]
    split
    · exact (List.sublist_append_right _ _).trans (List.sublist_cons_self _ _)
    · split
      · simp only [elements]
        exact (ihc.append (List.Sublist.refl _)).cons₂ _
      · simp only [elements]
        exact ((List.Sublist.refl _).append ihr).cons₂ _

/-- `removeFirstById x` changes nothing when no element has id `x`. -/
theorem removeFirstById_eq_self (x : String) (f : Forest) (h : x ∉ f.ids) :
    f.removeFirstById x = f := by
  induction f with
  | nil => rfl
  | text d rest ih => simp [removeFirstById, ih (by simpa [ids_text] using h)]
  | element t a c rest ihc ihr =>
    rw [ids_element] at h
    simp only [List.mem_append, not_or] at h
    obtain ⟨h0, hc, hr⟩ := h
    have h0' : ¬ Elem.id ⟨t, a⟩ = some x := by
      intro hx
      simp [hx] at h0
    simp [removeFirstById, h0', hc, ihr hr]

/-- The ids left by `removeFirstById x` are among the ids with the first `x` erased. -/
theorem removeFirstById_ids_erase (x : String) (f : Forest) :
    (f.removeFirstById x).ids.Sublist (f.ids.erase x) := by
  induction f with
  | nil => simp [removeFirstById, ids, elements]
  | text d rest ih => simpa [removeFirstById, ids_text] using ih
  | element t a c rest ihc ihr =>
    simp only [removeFirstById]
    split
    · rename_i h
      rw [ids_element, h]
      simp
    · rename_i h
      have hpre : x ∉ (Elem.id ⟨t, a⟩).toList := by
        intro hx
        apply h
        cases h' : Elem.id ⟨t, a⟩ with
        | none => simp [h'] at hx
        | some y =>
          simp [h'] at hx
          simp [hx]
      split
      · rename_i hc
        rw [ids_element, ids_element, List.erase_append_right _ hpre,
          List.erase_append_left _ hc]
        exact (List.Sublist.refl _).append (ihc.append (List.Sublist.refl _))
      · rename_i hc
        rw [ids_element, ids_element, List.erase_append_right _ hpre,
          List.erase_append_right _ hc]
        exact (List.Sublist.refl _).append ((List.Sublist.refl _).append ihr)

end Forest

/-! ## Lemmas on documents -/

namespace Document

theorem ids_eq_filterMap (d : Document) : d.ids = d.elements.filterMap Elem.id := by
  simp [ids, elements, Forest.ids]

theorem hasId_eq_true_iff (d : Document) (x : String) : d.hasId x = true ↔ x ∈ d.ids := by
  simp [hasId]

theorem hasId_eq_false_iff (d : Document) (x : String) : d.hasId x = false ↔ x ∉ d.ids := by
  simp [hasId]

theorem hasMatch_eq_false_iff (d : Document) (q : Elem → Bool) :
    d.hasMatch q = false ↔ ∀ e ∈ d.elements, q e = false := by
  simp [hasMatch]

theorem removeAll_elements_sublist (d : Document) (q : Elem → Bool) :
    (d.removeAll q).elements.Sublist d.elements := by
  cases d with
  | mk head body =>
    cases body with
    | none => simpa [removeAll, elements] using Forest.removeAll_sublist q head
    | some b =>
      simpa [removeAll, elements] using
        (Forest.removeAll_sublist q head).append (Forest.removeAll_sublist q b)

theorem removeAll_no_match (d : Document) (q : Elem → Bool) :
    ∀ e ∈ (d.removeAll q).elements, q e = false := by
  cases d with
  | mk head body =>
    intro e he
    cases body with
    | none =>
      simp only [removeAll, elements, Option.map_none', Option.getD_none, Forest.elements,
        List.append_nil] at he
      exact Forest.removeAll_none_left q head e he
    | some b =>
      simp only [removeAll, elements, Option.map_some', Option.getD_some, List.mem_append] at he
      rcases he with he | he
      · exact Forest.removeAll_none_left q head e he
      · exact Forest.removeAll_none_left q b e he

theorem removeAll_eq_self (d : Document) (q : Elem → Bool)
    (h : ∀ e ∈ d.elements, q e = false) : d.removeAll q = d := by
  cases d with
  | mk head body =>
    cases body with
    | none =>
      simp only [elements, Option.getD_none, Forest.elements, List.append_nil] at h
      simp [removeAll, Forest.removeAll_unchanged q head h]
    | some b =>
      simp only [elements, Option.getD_some, List.mem_append] at h
      simp [removeAll, Forest.removeAll_unchanged q head (fun e he => h e (Or.inl he)),
        Forest.removeAll_unchanged q b (fun e he => h e (Or.inr he))]

theorem removeFirstById_elements_sublist (d : Document) (x : String) :
    (d.removeFirstById x).elements.Sublist d.elements := by
  cases d with
  | mk head body =>
    simp only [removeFirstById]
    split
    · exact (Forest.removeFirstById_sublist x head).append (List.Sublist.refl _)
    · cases body with
      | none => simp [elements]
      | some b =>
        simpa [elements] using
          (List.Sublist.refl head.elements).append (Forest.removeFirstById_sublist x b)

theorem removeFirstById_ids_sublist (d : Document) (x : String) :
    (d.removeFirstById x).ids.Sublist (d.ids.erase x) := by
  cases d with
  | mk head body =>
    simp only [removeFirstById]
    split
    · rename_i h
      simp only [ids]
      rw [List.erase_append_left _ h]
      exact (Forest.removeFirstById_ids_erase x head).append (List.Sublist.refl _)
    · rename_i h
      simp only [ids]
      rw [List.erase_append_right _ h]
      cases body with
      | none => simp [Forest.ids, Forest.elements]
      | some b =>
        simpa using (List.Sublist.refl head.ids).append (Forest.removeFirstById_ids_erase x b)

theorem removeIfPresent_elements_sublist (d : Document) (x : String) :
    (d.removeIfPresent x).elements.Sublist d.elements := by
  simp only [removeIfPresent]
  split
  · exact removeFirstById_elements_sublist d x
  · exact List.Sublist.refl _

theorem removeIfPresent_ids_sublist (d : Document) (x : String) :
    (d.removeIfPresent x).ids.Sublist (d.ids.erase x) := by
  simp only [removeIfPresent]
  split
  · exact removeFirstById_ids_sublist d x
  · rename_i h
    have hx : x ∉ d.ids := by simpa [hasId] using h
    rw [List.erase_of_not_mem hx]

theorem removeIfPresent_eq_self (d : Document) (x : String) (h : x ∉ d.ids) :
    d.removeIfPresent x = d := by
  simp [removeIfPresent, hasId, h]

/-- With unique ids, no element has id `x` after `removeIfPresent x`. -/
theorem removeIfPresent_not_mem (d : Document) (x : String) (h : d.ids.Nodup) :
    x ∉ (d.removeIfPresent x).ids := fun hx =>
  h.not_mem_erase ((removeIfPresent_ids_sublist d x).subset hx)

theorem ids_sublist_of_elements_sublist {d e : Document} (h : d.elements.Sublist e.elements) :
    d.ids.Sublist e.ids := by
  rw [ids_eq_filterMap, ids_eq_filterMap]
  exact h.filterMap _

end Document

/-! ## Lemmas on the operations of the script -/

theorem pushConsentEvent_eq (granted : Bool) (p : Page) :
    pushConsentEvent granted p =
      { p with
        dataLayer := p.dataLayer ++ consentRecord granted ::
          (if p.gtag = Bridge.stub then
            [Entry.arguments (consentUpdateArgs (if granted then "granted" else "denied"))]
           else []),
        gtagCalls := p.gtagCalls ++
          (if p.gtag.callable then [consentUpdateArgs (if granted then "granted" else "denied")]
           else []) } := by
  cases p with
  | mk document loading hostname now dataLayer gtag gtagCalls cookieWrites jar listeners =>
    cases gtag <;> simp [pushConsentEvent, callGtag, Bridge.callable]

/-- The store after the cookies `names` have been cleared on host `host`. -/
theorem foldl_clearCookie_eq (names : List String) (p : Page) :
    names.foldl clearCookie p =
      { p with
        cookieWrites := p.cookieWrites ++
          names.flatMap (fun n => [hostCookieText n p.hostname, plainCookieText n]),
        jar := names.foldl (fun j n =>
          (j.expire n (CookieScope.domain p.hostname) "/").expire n CookieScope.hostOnly "/")
          p.jar } := by
  induction names generalizing p with
  | nil => simp
  | cons n ns ih =>
    rw [List.foldl_cons, ih]
    simp [clearCookie, Page.expireCookie, List.flatMap_cons]

theorem removeGtm_document (p : Page) :
    (removeGtm p).document =
      ((p.document.removeAll Elem.isGtmScript).removeIfPresent SCRIPT_ID).removeIfPresent
        NOSCRIPT_ID := by
  simp [removeGtm, foldl_clearCookie_eq, removeNoscript, pushConsentEvent_eq]

/-! ## Reading the consent flag -/

/-- C1: `applyConsentState` takes the load path exactly when the read of the consent
key succeeded with the value "true", and the removal path for every other outcome
of the read; a read that throws gives the removal path and no exception (the
function is total). -/
theorem applyConsentState_fail_closed (read : StorageRead) (p : Page) :
    applyConsentState read p =
        (if read = StorageRead.value (some "true") then loadGtm p else removeGtm p) ∧
      applyConsentState StorageRead.throws p = removeGtm p ∧
      applyConsentState (StorageRead.value none) p = removeGtm p := by
  refine ⟨?_, rfl, rfl⟩
  cases read with
  | throws => simp [applyConsentState, safeGetLocalStorage]
  | value v => simp [applyConsentState, safeGetLocalStorage, CONSENT_GRANTED]

theorem applyConsentState_of_not_granted (read : StorageRead) (p : Page)
    (h : read ≠ StorageRead.value (some "true")) : applyConsentState read p = removeGtm p := by
  cases read with
  | throws => rfl
  | value v =>
    have hv : v ≠ some "true" := fun hv => h (by rw [hv])
    simp [applyConsentState, safeGetLocalStorage, CONSENT_GRANTED, hv]

theorem applyConsentState_granted (p : Page) :
    applyConsentState (StorageRead.value (some "true")) p = loadGtm p := rfl

/-! ## The removal path -/

/-- C2: on a page with unique element ids, for every outcome of the read other than
the value "true", the document after `applyConsentState` has no element with the
id of the tag script, no script element whose source starts with the address of
the vendor's `gtm.js`, and no element with the id of the fallback element. -/
theorem denied_leaves_no_artifacts (read : StorageRead) (p : Page)
    (hread : read ≠ StorageRead.value (some "true")) (hids : p.document.ids.Nodup) :
    (applyConsentState read p).document.hasId SCRIPT_ID = false ∧
      (applyConsentState read p).document.hasMatch Elem.isGtmScript = false ∧
      (applyConsentState read p).document.hasId NOSCRIPT_ID = false := by
  rw [applyConsentState_of_not_granted read p hread, removeGtm_document]
  have h1 : (p.document.removeAll Elem.isGtmScript).ids.Nodup :=
    (Document.ids_sublist_of_elements_sublist
      (Document.removeAll_elements_sublist _ _)).nodup hids
  have h2 : ((p.document.removeAll Elem.isGtmScript).removeIfPresent SCRIPT_ID).ids.Nodup :=
    ((Document.removeIfPresent_ids_sublist _ _).trans (List.erase_sublist _ _)).nodup h1
  refine ⟨?_, ?_, ?_⟩
  · rw [Document.hasId_eq_false_iff]
    intro hx
    exact Document.removeIfPresent_not_mem _ _ h1
      ((Document.ids_sublist_of_elements_sublist
        (Document.removeIfPresent_elements_sublist _ _)).subset hx)
  · rw [Document.hasMatch_eq_false_iff]
    intro e he
    exact Document.removeAll_no_match _ _ e
      ((Document.removeIfPresent_elements_sublist _ _).subset
        ((Document.removeIfPresent_elements_sublist _ _).subset he))
  · rw [Document.hasId_eq_false_iff]
    exact Document.removeIfPresent_not_mem _ _ h2

theorem denied_leaves_no_artifacts_witness :
    installedPage.document.hasId SCRIPT_ID = true ∧
      (applyConsentState denied installedPage).document.hasId SCRIPT_ID = false ∧
      (applyConsentState denied installedPage).document.hasMatch Elem.isGtmScript = false ∧
      (applyConsentState denied installedPage).document.hasId NOSCRIPT_ID = false :=
  ⟨by decide, denied_leaves_no_artifacts denied installedPage (by decide) (by decide)⟩

/-! ## Cookies -/

theorem removeGtm_cookieWrites (p : Page) :
    (removeGtm p).cookieWrites =
      p.cookieWrites ++
        cookiesToClear.flatMap (fun n => [hostCookieText n p.hostname, plainCookieText n]) := by
  simp [removeGtm, foldl_clearCookie_eq, removeNoscript, pushConsentEvent_eq]

theorem removeGtm_jar (p : Page) :
    (removeGtm p).jar =
      cookiesToClear.foldl (fun j n =>
        (j.expire n (CookieScope.domain p.hostname) "/").expire n CookieScope.hostOnly "/")
        p.jar := by
  simp [removeGtm, foldl_clearCookie_eq, removeNoscript, pushConsentEvent_eq]

/-- Clearing the names of a list one after the other is one filter of the store. -/
theorem foldl_expire_eq_filter (host : String) (names : List String) (jar : Jar) :
    names.foldl (fun j n =>
        (j.expire n (CookieScope.domain host) "/").expire n CookieScope.hostOnly "/") jar =
      jar.filter (fun c => !(decide (c.name ∈ names) && c.path == "/" &&
        (c.scope == CookieScope.hostOnly || c.scope == CookieScope.domain host))) := by
  induction names generalizing jar with
  | nil => simp
  | cons n ns ih =>
    rw [List.foldl_cons, ih]
    simp only [Jar.expire, List.filter_filter]
    apply List.filter_congr
    intro c _
    have hmem : decide (c.name ∈ n :: ns) = (c.name == n || decide (c.name ∈ ns)) := by
      by_cases h1 : c.name = n <;> by_cases h5 : c.name ∈ ns <;> simp [h1, h5]
    rw [hmem]
    cases c.name == n <;> cases decide (c.name ∈ ns) <;> cases c.path == "/" <;>
      cases c.scope == CookieScope.hostOnly <;>
      cases c.scope == CookieScope.domain host <;> rfl

/-- C3 (amended): for every store and every outcome of the read other than the value
"true", the store after `applyConsentState` is the store before without the
cookies that have a name of the fixed list, the path `/`, and are bound to the
current host only or to the domain equal to the current hostname. Every other
cookie is kept. -/
theorem denied_evicts_host_cookies (read : StorageRead) (p : Page)
    (hread : read ≠ StorageRead.value (some "true")) :
    (applyConsentState read p).jar = p.jar.filter (fun c => !clearedOn p.hostname c) ∧
      ∀ c ∈ (applyConsentState read p).jar, clearedOn p.hostname c = false := by
  have h : (applyConsentState read p).jar = p.jar.filter (fun c => !clearedOn p.hostname c) := by
    rw [applyConsentState_of_not_granted read p hread, removeGtm_jar, foldl_expire_eq_filter]
    rfl
  refine ⟨h, ?_⟩
  intro c hc
  rw [h, List.mem_filter] at hc
  simpa using hc.2

theorem denied_evicts_host_cookies_witness :
    (applyConsentState denied installedPage).jar =
        installedPage.jar.filter (fun c => !clearedOn installedPage.hostname c) ∧
      ∀ c ∈ (applyConsentState denied installedPage).jar,
        clearedOn installedPage.hostname c = false :=
  denied_evicts_host_cookies denied installedPage (by decide)

/-- C3 (counterexample): on host `docs.ahasend.com`, a cookie `_ga` bound to the
domain `ahasend.com` is still in the store after a denied reconciliation. -/
theorem parent_domain_cookie_survives :
    denied ≠ StorageRead.value (some "true") ∧
      "_ga" ∈ cookiesToClear ∧
      (applyConsentState denied installedPage).jar =
        [⟨"_ga", CookieScope.domain "ahasend.com", "/", "GA1.1.1"⟩,
         ⟨"session", CookieScope.hostOnly, "/", "abc"⟩] ∧
      Jar.hasName (applyConsentState denied installedPage).jar "_ga" = true := by
  decide

/-- C9: the names cleared are `_ga`, `_gid`, `_gat`, `_gcl_au` and `_ga_KCQ9JNVZ` (the
container id without `GTM-`); `removeGtm` assigns to `document.cookie`, for each
name in this order, first the string with `domain=<hostname>` and then the string
without a domain, both with an empty value, `Max-Age=0`, `path=/` and
`SameSite=Lax`, and nothing else: twice the length of the list in total. -/
theorem cookie_expiry_writes (p : Page) :
    cookiesToClear = ["_ga", "_gid", "_gat", "_gcl_au", "_ga_KCQ9JNVZ"] ∧
      (removeGtm p).cookieWrites =
        p.cookieWrites ++ cookiesToClear.flatMap (fun name =>
          [name ++ "=; Max-Age=0; path=/; domain=" ++ p.hostname ++ "; SameSite=Lax;",
           name ++ "=; Max-Age=0; path=/; SameSite=Lax;"]) ∧
      (removeGtm p).cookieWrites.length = p.cookieWrites.length + 2 * cookiesToClear.length := by
  have h := removeGtm_cookieWrites p
  refine ⟨by decide, h, ?_⟩
  rw [h]
  simp [cookiesToClear]

/-! ## The event queue -/

/-- C10: `pushConsentEvent granted` only appends to the event queue: the queue before
is a prefix of the queue after, the first entry appended is the record with
`event: 'cookie_consent_analytics'` and `consent_given: granted`; a bridge that is
a function is called exactly once, with `'consent'`, `'update'` and the record
`analytics_storage: 'granted'` or `'denied'`; with the stub as bridge the call
appends its arguments as one more entry, so the queue grows by two entries. -/
theorem pushConsentEvent_appends (granted : Bool) (p : Page) :
    p.dataLayer <+: (pushConsentEvent granted p).dataLayer ∧
      (pushConsentEvent granted p).dataLayer =
        p.dataLayer ++
          Entry.record [("event", Prim.str "cookie_consent_analytics"),
                        ("consent_given", Prim.bool granted)] ::
          (if p.gtag = Bridge.stub then
            [Entry.arguments
              [Arg.prim (Prim.str "consent"), Arg.prim (Prim.str "update"),
               Arg.record [("analytics_storage",
                 Prim.str (if granted = true then "granted" else "denied"))]]]
           else []) ∧
      (pushConsentEvent granted p).gtagCalls =
        p.gtagCalls ++
          (if p.gtag.callable = true then
            [[Arg.prim (Prim.str "consent"), Arg.prim (Prim.str "update"),
              Arg.record [("analytics_storage",
                Prim.str (if granted = true then "granted" else "denied"))]]]
           else []) ∧
      (pushConsentEvent granted p).dataLayer.length =
        p.dataLayer.length + (if p.gtag = Bridge.stub then 2 else 1) := by
  rw [pushConsentEvent_eq]
  refine ⟨List.prefix_append _ _, rfl, rfl, ?_⟩
  by_cases h : p.gtag = Bridge.stub <;> simp [h]

/-! ## Explicit forms of the two paths -/

theorem removeGtm_eq (p : Page) :
    removeGtm p =
      { p with
        dataLayer := p.dataLayer ++ consentRecord false ::
          (if p.gtag = Bridge.stub then [Entry.arguments (consentUpdateArgs "denied")] else []),
        gtagCalls := p.gtagCalls ++
          (if p.gtag.callable then [consentUpdateArgs "denied"] else []),
        document := ((p.document.removeAll Elem.isGtmScript).removeIfPresent
          SCRIPT_ID).removeIfPresent NOSCRIPT_ID,
        cookieWrites := p.cookieWrites ++
          cookiesToClear.flatMap (fun n => [hostCookieText n p.hostname, plainCookieText n]),
        jar := p.jar.filter (fun c => !clearedOn p.hostname c) } := by
  have hj := foldl_expire_eq_filter p.hostname cookiesToClear p.jar
  simp only [removeGtm, foldl_clearCookie_eq, removeNoscript, pushConsentEvent_eq]
  simp only [hj]
  rfl

theorem isGtmScript_of_isLoaderScript (e : Elem) (h : Elem.isLoaderScript e = true) :
    Elem.isGtmScript e = true := by
  have hp : startsWith GTM_SCRIPT_SRC GTM_JS_SELECTOR_VALUE = true := by decide
  simp only [Elem.isLoaderScript, Bool.and_eq_true, beq_iff_eq] at h
  simp [Elem.isGtmScript, h.1, h.2, hp]

theorem clean_iff (d : Document) :
    d.clean = true ↔
      SCRIPT_ID ∉ d.ids ∧ (∀ e ∈ d.elements, Elem.isGtmScript e = false) ∧ NOSCRIPT_ID ∉ d.ids := by
  simp [Document.clean, Document.hasId, Document.hasMatch, and_assoc]

theorem scriptNode_ids : scriptNode.ids = [SCRIPT_ID] := by decide

theorem scriptNode_elements :
    scriptNode.elements =
      [⟨"script", [("id", SCRIPT_ID), ("async", ""), ("src", GTM_SCRIPT_SRC)]⟩] := rfl

theorem noscriptNode_ids (b : Forest) : (noscriptNode b).ids = NOSCRIPT_ID :: b.ids := by
  have h : Elem.id ⟨"noscript", [("id", NOSCRIPT_ID)]⟩ = some NOSCRIPT_ID := by decide
  rw [noscriptNode, Forest.ids_element, h]
  simp [Forest.ids, Forest.elements, Elem.id]

theorem noscriptNode_elements (b : Forest) :
    (noscriptNode b).elements =
      ⟨"noscript", [("id", NOSCRIPT_ID)]⟩ ::
        ⟨"iframe", [("src", GTM_NS_SRC), ("height", "0"), ("width", "0"),
          ("style", "display: none; visibility: hidden;")]⟩ :: b.elements := rfl

theorem loadGtm_of_installed (p : Page)
    (h : (p.document.hasId SCRIPT_ID || p.document.hasMatch Elem.isLoaderScript) = true) :
    loadGtm p = p := by
  simp only [loadGtm, h, if_true]

theorem loadGtm_of_absent (p : Page) (b : Forest) (hb : p.document.body = some b)
    (h1 : p.document.hasId SCRIPT_ID = false)
    (h2 : p.document.hasMatch Elem.isLoaderScript = false)
    (h0 : p.document.hasId NOSCRIPT_ID = false) :
    loadGtm p =
      { p with
        dataLayer := p.dataLayer ++ gtmStartRecord p.now :: consentRecord true ::
          (if p.gtag = Bridge.stub then [Entry.arguments (consentUpdateArgs "granted")] else []),
        gtagCalls := p.gtagCalls ++
          (if p.gtag.callable then [consentUpdateArgs "granted"] else []),
        document := { head := p.document.head.append scriptNode, body := some (noscriptNode b) } } := by
  have hn : NOSCRIPT_ID ∉ p.document.ids := by simpa [Document.hasId] using h0
  have h3 : NOSCRIPT_ID ∉ (p.document.appendToHead scriptNode).ids := by
    have hne : ¬ NOSCRIPT_ID = SCRIPT_ID := by decide
    simp only [Document.ids, Document.appendToHead, Forest.ids_append, scriptNode_ids] at hn ⊢
    simp only [List.mem_append, List.mem_singleton, not_or] at hn ⊢
    exact ⟨⟨hn.1, hne⟩, hn.2⟩
  have h4 : (p.document.appendToHead scriptNode).hasId NOSCRIPT_ID = false := by
    simpa [Document.hasId] using h3
  simp only [loadGtm, h1, h2, Bool.or_self, Bool.false_eq_true, if_false, insertNoscript,
    pushConsentEvent_eq, h4]
  simp [Document.appendToHead, hb]

theorem loadGtm_of_clean (p : Page) (b : Forest) (hb : p.document.body = some b)
    (hc : p.document.clean = true) :
    loadGtm p =
      { p with
        dataLayer := p.dataLayer ++ gtmStartRecord p.now :: consentRecord true ::
          (if p.gtag = Bridge.stub then [Entry.arguments (consentUpdateArgs "granted")] else []),
        gtagCalls := p.gtagCalls ++
          (if p.gtag.callable then [consentUpdateArgs "granted"] else []),
        document := { head := p.document.head.append scriptNode, body := some (noscriptNode b) } } := by
  obtain ⟨hs, hg, hn⟩ := (clean_iff _).1 hc
  have h1 : p.document.hasId SCRIPT_ID = false := by simpa [Document.hasId] using hs
  have h2 : p.document.hasMatch Elem.isLoaderScript = false := by
    rw [Document.hasMatch_eq_false_iff]
    intro e he
    cases h : Elem.isLoaderScript e with
    | false => rfl
    | true =>
      have := hg e he
      rw [isGtmScript_of_isLoaderScript e h] at this
      exact absurd this (by simp)
  exact loadGtm_of_absent p b hb h1 h2 (by simpa [Document.hasId] using hn)

theorem Forest.append_nil (a : Forest) : a.append Forest.nil = a := by
  induction a with
  | nil => rfl
  | text d rest ih => simp [Forest.append, ih]
  | element t a c rest _ ih => simp [Forest.append, ih]

theorem Forest.removeAll_append (q : Elem → Bool) (a b : Forest) :
    (a.append b).removeAll q = (a.removeAll q).append (b.removeAll q) := by
  induction a with
  | nil => rfl
  | text d rest ih => simp [Forest.append, Forest.removeAll, ih]
  | element t a c rest _ ih =>
    by_cases h : q ⟨t, a⟩ = true <;> simp [Forest.append, Forest.removeAll, h, ih]

theorem removeAll_scriptNode : scriptNode.removeAll Elem.isGtmScript = Forest.nil := by decide

theorem removeAll_noscriptNode (b : Forest) :
    (noscriptNode b).removeAll Elem.isGtmScript = noscriptNode (b.removeAll Elem.isGtmScript) := by
  have h1 : Elem.isGtmScript ⟨"noscript", [("id", NOSCRIPT_ID)]⟩ = false := by decide
  have h2 : Elem.isGtmScript ⟨"iframe", [("src", GTM_NS_SRC), ("height", "0"), ("width", "0"),
      ("style", "display: none; visibility: hidden;")]⟩ = false := by decide
  simp [noscriptNode, Forest.removeAll, h1, h2]

theorem removeFirstById_noscriptNode (b : Forest) :
    (noscriptNode b).removeFirstById NOSCRIPT_ID = b := by
  have h : Elem.id ⟨"noscript", [("id", NOSCRIPT_ID)]⟩ = some NOSCRIPT_ID := by decide
  simp [noscriptNode, Forest.removeFirstById, h]

/-- The removal path undoes the load path on a page that was clean. -/
theorem removeGtm_installed_document (d : Document) (b : Forest) (hb : d.body = some b)
    (hc : d.clean = true) :
    (((({ head := d.head.append scriptNode, body := some (noscriptNode b) } :
      Document).removeAll Elem.isGtmScript).removeIfPresent SCRIPT_ID).removeIfPresent
        NOSCRIPT_ID) = d := by
  obtain ⟨hs, hg, hn⟩ := (clean_iff _).1 hc
  cases d with
  | mk head body =>
    simp only at hb
    subst hb
    simp only [Document.ids, Document.elements, Option.getD_some, List.mem_append, not_or] at hs hg hn
    have hhead : head.removeAll Elem.isGtmScript = head :=
      Forest.removeAll_unchanged _ _ (fun e he => hg e (Or.inl he))
    have hbody : b.removeAll Elem.isGtmScript = b :=
      Forest.removeAll_unchanged _ _ (fun e he => hg e (Or.inr he))
    have h1 : ({ head := head.append scriptNode, body := some (noscriptNode b) } :
        Document).removeAll Elem.isGtmScript = { head := head, body := some (noscriptNode b) } := by
      simp [Document.removeAll, Forest.removeAll_append, removeAll_scriptNode,
        removeAll_noscriptNode, hhead, hbody, Forest.append_nil]
    have hne : ¬ SCRIPT_ID = NOSCRIPT_ID := by decide
    have h2 : SCRIPT_ID ∉ ({ head := head, body := some (noscriptNode b) } : Document).ids := by
      simp [Document.ids, noscriptNode_ids, hs.1, hs.2, hne]
    rw [h1, Document.removeIfPresent_eq_self _ _ h2]
    simp [Document.removeIfPresent, Document.hasId, Document.ids, noscriptNode_ids,
      Document.removeFirstById, hn.1, removeFirstById_noscriptNode]

/-! ## Idempotence and round trip -/

/-- C6: on a page where nothing is installed (no element with the id of the tag script,
no script whose source starts with the address of the vendor's `gtm.js`, no
fallback element, no cookie with a name of the fixed list), `removeGtm` leaves the
document and the cookie store as they are: besides the strings assigned to
`document.cookie`, which evict nothing, it only appends the consent-denied record
to the event queue and calls the bridge with the consent update. -/
theorem removeGtm_noop_when_clean (p : Page) (hc : p.document.clean = true)
    (hj : ∀ n ∈ cookiesToClear, p.jar.hasName n = false) :
    (removeGtm p).document = p.document ∧
      (removeGtm p).jar = p.jar ∧
      removeGtm p =
        { p with
          dataLayer := p.dataLayer ++ consentRecord false ::
            (if p.gtag = Bridge.stub then [Entry.arguments (consentUpdateArgs "denied")] else []),
          gtagCalls := p.gtagCalls ++
            (if p.gtag.callable then [consentUpdateArgs "denied"] else []),
          cookieWrites := p.cookieWrites ++
            cookiesToClear.flatMap (fun n => [hostCookieText n p.hostname, plainCookieText n]) } := by
  obtain ⟨hs, hg, hn⟩ := (clean_iff _).1 hc
  have hd : ((p.document.removeAll Elem.isGtmScript).removeIfPresent
      SCRIPT_ID).removeIfPresent NOSCRIPT_ID = p.document := by
    rw [Document.removeAll_eq_self _ _ hg, Document.removeIfPresent_eq_self _ _ hs,
      Document.removeIfPresent_eq_self _ _ hn]
  have hjar : p.jar.filter (fun c => !clearedOn p.hostname c) = p.jar := by
    rw [List.filter_eq_self]
    intro c hcm
    have hname : c.name ∉ cookiesToClear := by
      intro hmem
      have := hj c.name hmem
      simp only [Jar.hasName, List.any_eq_false, beq_iff_eq] at this
      exact this c hcm rfl
    simp [clearedOn, hname]
  have h := removeGtm_eq p
  rw [hd, hjar] at h
  refine ⟨?_, ?_, h⟩
  · rw [h]
  · rw [h]

theorem removeGtm_noop_when_clean_witness :
    (removeGtm plainPage).document = plainPage.document ∧
      (removeGtm plainPage).jar = plainPage.jar ∧
      removeGtm plainPage =
        { plainPage with
          dataLayer := plainPage.dataLayer ++ consentRecord false ::
            (if plainPage.gtag = Bridge.stub then
              [Entry.arguments (consentUpdateArgs "denied")] else []),
          gtagCalls := plainPage.gtagCalls ++
            (if plainPage.gtag.callable then [consentUpdateArgs "denied"] else []),
          cookieWrites := plainPage.cookieWrites ++
            cookiesToClear.flatMap (fun n =>
              [hostCookieText n plainPage.hostname, plainCookieText n]) } :=
  removeGtm_noop_when_clean plainPage (by decide) (by decide)

/-- C5: on a page that has a body and none of the tag artifacts (no element with the id of
the tag script, no script element with the loader address, no element with the id
of the fallback element), two evaluations of `applyConsentState` with the flag
"true" leave exactly one element with the id of the tag script (the script element
with the loader address, last child of the head) and exactly one element with the
id of the fallback element (first child of the body); the second evaluation
changes nothing at all. -/
theorem granted_twice_installs_once (p : Page) (b : Forest)
    (hb : p.document.body = some b)
    (h1 : p.document.hasId SCRIPT_ID = false)
    (h2 : p.document.hasMatch Elem.isLoaderScript = false)
    (h0 : p.document.hasId NOSCRIPT_ID = false) :
    applyConsentState (StorageRead.value (some "true"))
        (applyConsentState (StorageRead.value (some "true")) p) =
      applyConsentState (StorageRead.value (some "true")) p ∧
    (applyConsentState (StorageRead.value (some "true"))
        (applyConsentState (StorageRead.value (some "true")) p)).document =
      { head := p.document.head.append
          (Forest.element "script"
            [("id", "ahasend-gtm-script"), ("async", ""),
             ("src", "https://www.googletagmanager.com/gtm.js?id=GTM-KCQ9JNVZ")]
            Forest.nil Forest.nil),
        body := some (noscriptNode b) } ∧
    (applyConsentState (StorageRead.value (some "true"))
        (applyConsentState (StorageRead.value (some "true")) p)).document.ids.count SCRIPT_ID = 1 ∧
    (applyConsentState (StorageRead.value (some "true"))
        (applyConsentState (StorageRead.value (some "true")) p)).document.head.ids.count
          SCRIPT_ID = 1 ∧
    (applyConsentState (StorageRead.value (some "true"))
        (applyConsentState (StorageRead.value (some "true")) p)).document.ids.count
          NOSCRIPT_ID = 1 := by
  have hs : SCRIPT_ID ∉ p.document.ids := by simpa [Document.hasId] using h1
  have hn : NOSCRIPT_ID ∉ p.document.ids := by simpa [Document.hasId] using h0
  have hload := loadGtm_of_absent p b hb h1 h2 h0
  have hd : (loadGtm p).document =
      { head := p.document.head.append scriptNode, body := some (noscriptNode b) } := by
    rw [hload]
  have hids : (loadGtm p).document.ids =
      p.document.head.ids ++ [SCRIPT_ID] ++ NOSCRIPT_ID :: b.ids := by
    rw [hd]
    simp [Document.ids, Forest.ids_append, scriptNode_ids, noscriptNode_ids]
  have hin : (loadGtm p).document.hasId SCRIPT_ID = true := by
    rw [Document.hasId_eq_true_iff, hids]
    simp
  have hagain : loadGtm (loadGtm p) = loadGtm p := loadGtm_of_installed _ (by rw [hin]; rfl)
  simp only [Document.ids, hb, Option.getD_some, List.mem_append, not_or] at hs hn
  have hne : ¬ SCRIPT_ID = NOSCRIPT_ID := by decide
  have hne2 : ¬ NOSCRIPT_ID = SCRIPT_ID := by decide
  rw [applyConsentState_granted, applyConsentState_granted, hagain]
  refine ⟨rfl, hd, ?_, ?_, ?_⟩
  · rw [hids]
    simp [List.count_eq_zero_of_not_mem hs.1, List.count_eq_zero_of_not_mem hs.2,
      List.count_cons, hne2]
  · rw [hd]
    simp [Forest.ids_append, scriptNode_ids, List.count_eq_zero_of_not_mem hs.1]
  · rw [hids]
    simp [List.count_eq_zero_of_not_mem hn.1, List.count_eq_zero_of_not_mem hn.2,
      List.count_cons, hne]

theorem granted_twice_installs_once_witness :
    (applyConsentState (StorageRead.value (some "true"))
        (applyConsentState (StorageRead.value (some "true")) plainPage)).document.ids.count
          SCRIPT_ID = 1 ∧
    (applyConsentState (StorageRead.value (some "true"))
        (applyConsentState (StorageRead.value (some "true")) plainPage)).document.ids.count
          NOSCRIPT_ID = 1 :=
  have h := granted_twice_installs_once plainPage
    (Forest.element "div" [("id", "app")]
      (Forest.element "p" [] (Forest.text "hello" Forest.nil) Forest.nil) Forest.nil)
    rfl (by decide) (by decide) (by decide)
  ⟨h.2.2.1, h.2.2.2.2⟩

/-- C7: on a page that has a body and no tag artifact, the evaluations granted, denied,
granted leave the same document as one granted evaluation: the tag script appended
to the head, the fallback element as first child of the body, and the rest as it
was. -/
theorem granted_denied_granted (read : StorageRead) (p : Page) (b : Forest)
    (hread : read ≠ StorageRead.value (some "true"))
    (hb : p.document.body = some b) (hc : p.document.clean = true) :
    (applyConsentState (StorageRead.value (some "true"))
        (applyConsentState read
          (applyConsentState (StorageRead.value (some "true")) p))).document =
      (applyConsentState (StorageRead.value (some "true")) p).document ∧
    (applyConsentState (StorageRead.value (some "true")) p).document =
      { head := p.document.head.append scriptNode, body := some (noscriptNode b) } := by
  have hd : (loadGtm p).document =
      { head := p.document.head.append scriptNode, body := some (noscriptNode b) } := by
    rw [loadGtm_of_clean p b hb hc]
  have hback : (removeGtm (loadGtm p)).document = p.document := by
    rw [removeGtm_document, hd]
    exact removeGtm_installed_document p.document b hb hc
  rw [applyConsentState_granted, applyConsentState_of_not_granted read _ hread,
    applyConsentState_granted]
  refine ⟨?_, hd⟩
  rw [loadGtm_of_clean (removeGtm (loadGtm p)) b (by rw [hback]; exact hb)
    (by rw [hback]; exact hc), hd, hback]

theorem granted_denied_granted_witness :
    (applyConsentState (StorageRead.value (some "true"))
        (applyConsentState denied
          (applyConsentState (StorageRead.value (some "true")) plainPage))).document =
      (applyConsentState (StorageRead.value (some "true")) plainPage).document :=
  (granted_denied_granted denied plainPage
    (Forest.element "div" [("id", "app")]
      (Forest.element "p" [] (Forest.text "hello" Forest.nil) Forest.nil) Forest.nil)
    (by decide) rfl (by decide)).1

/-! ## Deferred insertion of the fallback element -/

theorem insertNoscript_document (p : Page) :
    (insertNoscript p).document = p.document.withFallback := by
  simp only [insertNoscript, Document.withFallback]
  split
  · rfl
  · split <;> simp [*]

theorem deferredNoscript_document (p : Page) :
    ((deferredNoscript p).getD p).document = p.document.withFallback := by
  simp only [deferredNoscript, Document.withFallback]
  split
  · rfl
  · split <;> simp [*]

theorem loadGtm_document (p : Page) :
    (loadGtm p).document =
      if (p.document.hasId SCRIPT_ID || p.document.hasMatch Elem.isLoaderScript) = true then
        p.document
      else (p.document.appendToHead scriptNode).withFallback := by
  simp only [loadGtm]
  split
  · rfl
  · rw [insertNoscript_document, pushConsentEvent_eq]

/-- C8 (amended): when `loadGtm` runs on a page with no body, no fallback element and no
tag script (neither by id nor by the loader address), the call inserts no fallback
element and registers exactly one one-time `DOMContentLoaded` listener. When the
listener runs on a page whose body exists, it puts the fallback element before the
children of the body if no element has its id, and changes nothing otherwise; a
document with at most one such element still has at most one afterwards. -/
theorem deferred_fallback_insertion (p q : Page) (b : Forest)
    (hbody : p.document.body = none)
    (hno : p.document.hasId NOSCRIPT_ID = false)
    (htag : (p.document.hasId SCRIPT_ID || p.document.hasMatch Elem.isLoaderScript) = false)
    (hqb : q.document.body = some b)
    (hq : q.document.ids.count NOSCRIPT_ID ≤ 1) :
    (loadGtm p).document.body = none ∧
      (loadGtm p).document.hasId NOSCRIPT_ID = false ∧
      (loadGtm p).onDomContentLoaded = p.onDomContentLoaded ++ [Listener.deferredNoscript] ∧
      deferredNoscript q =
        some (if q.document.hasId NOSCRIPT_ID = true then q
          else { q with document := { q.document with body := some (noscriptNode b) } }) ∧
      ((deferredNoscript q).getD q).document.ids.count NOSCRIPT_ID ≤ 1 := by
  have hn : NOSCRIPT_ID ∉ p.document.ids := by simpa [Document.hasId] using hno
  have h3 : (p.document.appendToHead scriptNode).hasId NOSCRIPT_ID = false := by
    have hne : ¬ NOSCRIPT_ID = SCRIPT_ID := by decide
    simp only [Document.ids, List.mem_append, not_or] at hn
    simp [Document.hasId, Document.ids, Document.appendToHead, Forest.ids_append,
      scriptNode_ids, hn.1, hn.2, hne]
  have hload : loadGtm p =
      { p with
        dataLayer := p.dataLayer ++ gtmStartRecord p.now :: consentRecord true ::
          (if p.gtag = Bridge.stub then [Entry.arguments (consentUpdateArgs "granted")] else []),
        gtagCalls := p.gtagCalls ++
          (if p.gtag.callable then [consentUpdateArgs "granted"] else []),
        document := p.document.appendToHead scriptNode,
        onDomContentLoaded := p.onDomContentLoaded ++ [Listener.deferredNoscript] } := by
    simp only [loadGtm, htag, Bool.false_eq_true, if_false, insertNoscript,
      pushConsentEvent_eq, h3]
    simp [Document.appendToHead, hbody]
  refine ⟨?_, ?_, ?_, ?_, ?_⟩
  · rw [hload]
    simpa [Document.appendToHead] using hbody
  · rw [hload]
    exact h3
  · rw [hload]
  · by_cases hid : q.document.hasId NOSCRIPT_ID = true
    · simp [deferredNoscript, hid]
    · simp [deferredNoscript, hid, hqb]
  · by_cases hid : q.document.hasId NOSCRIPT_ID = true
    · simpa [deferredNoscript, hid] using hq
    · have hnq : NOSCRIPT_ID ∉ q.document.ids := by simpa [Document.hasId] using hid
      simp only [Document.ids, hqb, Option.getD_some, List.mem_append, not_or] at hnq
      simp [deferredNoscript, hid, hqb, Document.ids, noscriptNode_ids,
        List.count_eq_zero_of_not_mem hnq.1, List.count_eq_zero_of_not_mem hnq.2]

theorem deferred_fallback_insertion_witness :
    (loadGtm earlyPage).document.body = none ∧
      (loadGtm earlyPage).document.hasId NOSCRIPT_ID = false ∧
      (loadGtm earlyPage).onDomContentLoaded =
        earlyPage.onDomContentLoaded ++ [Listener.deferredNoscript] ∧
      deferredNoscript plainPage =
        some (if plainPage.document.hasId NOSCRIPT_ID = true then plainPage
          else { plainPage with document := { plainPage.document with
            body := some (noscriptNode (Forest.element "div" [("id", "app")]
              (Forest.element "p" [] (Forest.text "hello" Forest.nil) Forest.nil)
              Forest.nil)) } }) ∧
      ((deferredNoscript plainPage).getD plainPage).document.ids.count NOSCRIPT_ID ≤ 1 :=
  deferred_fallback_insertion earlyPage plainPage _ rfl (by decide) (by decide) rfl (by decide)

/-- C8 (counterexample): after a first `loadGtm` on a page without body, the page still has
no body and no fallback element, and a second `loadGtm` registers no listener: the
tag script is there and the call returns at once. -/
theorem second_load_registers_nothing :
    (loadGtm earlyPage).document.body = none ∧
      (loadGtm earlyPage).document.hasId NOSCRIPT_ID = false ∧
      (loadGtm earlyPage).onDomContentLoaded = [Listener.deferredNoscript] ∧
      (loadGtm (loadGtm earlyPage)).onDomContentLoaded = [Listener.deferredNoscript] ∧
      loadGtm (loadGtm earlyPage) = loadGtm earlyPage := by
  decide

/-! ## The settled states -/

theorem not_mem_erase_of_count_le_one (x : String) (l : List String) (h : l.count x ≤ 1) :
    x ∉ l.erase x := by
  intro hx
  have h1 : 0 < (l.erase x).count x := List.count_pos_iff.2 hx
  rw [List.count_erase_self] at h1
  omega

theorem Document.removeIfPresent_not_mem_of_count (d : Document) (x : String)
    (h : d.ids.count x ≤ 1) : x ∉ (d.removeIfPresent x).ids := fun hx =>
  not_mem_erase_of_count_le_one x d.ids h ((Document.removeIfPresent_ids_sublist d x).subset hx)

theorem removed_document_ids_sublist (d : Document) :
    (((d.removeAll Elem.isGtmScript).removeIfPresent SCRIPT_ID).removeIfPresent
      NOSCRIPT_ID).ids.Sublist d.ids :=
  Document.ids_sublist_of_elements_sublist
    (((Document.removeIfPresent_elements_sublist _ _).trans
      (Document.removeIfPresent_elements_sublist _ _)).trans
      (Document.removeAll_elements_sublist _ _))

/-- What the removal path leaves of a document that has at most one element with
each of the two ids. -/
theorem removed_document_clean (d : Document) (hs : d.ids.count SCRIPT_ID ≤ 1)
    (hn : d.ids.count NOSCRIPT_ID ≤ 1) :
    (((d.removeAll Elem.isGtmScript).removeIfPresent SCRIPT_ID).removeIfPresent
      NOSCRIPT_ID).clean = true := by
  rw [clean_iff]
  have e1 : (d.removeAll Elem.isGtmScript).ids.Sublist d.ids :=
    Document.ids_sublist_of_elements_sublist (Document.removeAll_elements_sublist _ _)
  have e2 : ((d.removeAll Elem.isGtmScript).removeIfPresent SCRIPT_ID).ids.Sublist d.ids :=
    (Document.ids_sublist_of_elements_sublist
      (Document.removeIfPresent_elements_sublist _ _)).trans e1
  refine ⟨?_, ?_, ?_⟩
  · intro hx
    exact Document.removeIfPresent_not_mem_of_count _ _ ((e1.count_le _).trans hs)
      ((Document.ids_sublist_of_elements_sublist
        (Document.removeIfPresent_elements_sublist _ _)).subset hx)
  · intro e he
    exact Document.removeAll_no_match _ _ e
      ((Document.removeIfPresent_elements_sublist _ _).subset
        ((Document.removeIfPresent_elements_sublist _ _).subset he))
  · exact Document.removeIfPresent_not_mem_of_count _ _ ((e2.count_le _).trans hn)

theorem no_loader_of_no_gtm {l : List Elem} (h : ∀ e ∈ l, Elem.isGtmScript e = false) :
    ∀ e ∈ l, Elem.isLoaderScript e = false := by
  intro e he
  cases hl : Elem.isLoaderScript e with
  | false => rfl
  | true =>
    have := h e he
    rw [isGtmScript_of_isLoaderScript e hl] at this
    exact absurd this (by simp)

theorem Document.withFallback_cases (d : Document) :
    d.withFallback = d ∨
      ∃ b, d.body = some b ∧ NOSCRIPT_ID ∉ d.ids ∧
        d.withFallback = { d with body := some (noscriptNode b) } := by
  simp only [Document.withFallback]
  by_cases h : d.hasId NOSCRIPT_ID = true
  · left
    simp [h]
  · cases hb : d.body with
    | none => left; simp [h]
    | some b =>
      right
      refine ⟨b, rfl, ?_, ?_⟩
      · simpa [Document.hasId] using h
      · simp [h]

theorem Document.withFallback_body_isSome (d : Document) :
    d.withFallback.body.isSome = d.body.isSome := by
  rcases d.withFallback_cases with h | ⟨b, hb, _, h⟩
  · rw [h]
  · rw [h, hb]
    rfl

theorem Document.withFallback_mem (d : Document) (h : d.body.isSome = true) :
    NOSCRIPT_ID ∈ d.withFallback.ids := by
  by_cases hid : d.hasId NOSCRIPT_ID = true
  · have hm : NOSCRIPT_ID ∈ d.ids := by simpa [Document.hasId] using hid
    simpa [Document.withFallback, hid] using hm
  · cases hb : d.body with
    | none => simp [hb] at h
    | some b => simp [Document.withFallback, hb, hid, Document.ids, noscriptNode_ids]

theorem Document.withFallback_count_script (d : Document) :
    d.withFallback.ids.count SCRIPT_ID = d.ids.count SCRIPT_ID := by
  rcases d.withFallback_cases with h | ⟨b, hb, _, h⟩
  · rw [h]
  · have hne : ¬ NOSCRIPT_ID = SCRIPT_ID := by decide
    rw [h]
    simp [Document.ids, hb, noscriptNode_ids, List.count_cons, hne]

theorem Document.withFallback_count_noscript (d : Document)
    (hn : d.ids.count NOSCRIPT_ID ≤ 1) : d.withFallback.ids.count NOSCRIPT_ID ≤ 1 := by
  rcases d.withFallback_cases with h | ⟨b, hb, hnot, h⟩
  · rw [h]
    exact hn
  · rw [h]
    simp only [Document.ids, hb, Option.getD_some, List.mem_append, not_or] at hnot
    simp [Document.ids, noscriptNode_ids, List.count_eq_zero_of_not_mem hnot.1,
      List.count_eq_zero_of_not_mem hnot.2]

theorem Document.withFallback_no_loader (d : Document)
    (hl : ∀ e ∈ d.elements, Elem.isLoaderScript e = false) :
    ∀ e ∈ d.withFallback.elements, Elem.isLoaderScript e = false := by
  rcases d.withFallback_cases with h | ⟨b, hb, _, h⟩
  · rw [h]
    exact hl
  · rw [h]
    simp only [Document.elements, hb, Option.getD_some, List.mem_append] at hl
    intro e he
    simp only [Document.elements, Option.getD_some, noscriptNode_elements, List.mem_append,
      List.mem_cons] at he
    rcases he with he | rfl | rfl | he
    · exact hl e (Or.inl he)
    · decide
    · decide
    · exact hl e (Or.inr he)

theorem appendToHead_scriptNode_ids (d : Document) :
    (d.appendToHead scriptNode).ids = d.head.ids ++ SCRIPT_ID :: (d.body.getD Forest.nil).ids := by
  simp [Document.appendToHead, Document.ids, Forest.ids_append, scriptNode_ids]

theorem Document.removeAll_body_isSome (d : Document) (q : Elem → Bool) :
    (d.removeAll q).body.isSome = d.body.isSome := by
  cases h : d.body <;> simp [Document.removeAll, h]

theorem Document.removeIfPresent_body_isSome (d : Document) (x : String) :
    (d.removeIfPresent x).body.isSome = d.body.isSome := by
  simp only [Document.removeIfPresent, Document.removeFirstById]
  split
  · split
    · rfl
    · cases h : d.body <;> simp [h]
  · rfl

theorem removeGtm_body_isSome (p : Page) :
    (removeGtm p).document.body.isSome = p.document.body.isSome := by
  rw [removeGtm_document, Document.removeIfPresent_body_isSome,
    Document.removeIfPresent_body_isSome, Document.removeAll_body_isSome]

theorem removeGtm_listeners (p : Page) :
    (removeGtm p).onDomContentLoaded = p.onDomContentLoaded := by
  rw [removeGtm_eq]

theorem loadGtm_body_isSome (p : Page) :
    (loadGtm p).document.body.isSome = p.document.body.isSome := by
  rw [loadGtm_document]
  split
  · rfl
  · rw [Document.withFallback_body_isSome]
    rfl

theorem loadGtm_listeners (p : Page) (hb : p.document.body.isSome = true) :
    (loadGtm p).onDomContentLoaded = p.onDomContentLoaded := by
  cases hbody : p.document.body with
  | none => simp [hbody] at hb
  | some b =>
    simp only [loadGtm]
    split
    · rfl
    · simp only [insertNoscript, pushConsentEvent_eq, Document.appendToHead, hbody]
      split <;> rfl

/-- The load path keeps the tag script in step with a granted read. -/
theorem loadGtm_scriptSynced (s : Settled) (h : ScriptSynced s) :
    ScriptSynced { page := loadGtm s.page, lastRead := some true } := by
  obtain ⟨hcs, hcn, hyes, hnot⟩ := h
  simp only [ScriptSynced, loadGtm_document]
  by_cases hin : (s.page.document.hasId SCRIPT_ID ||
      s.page.document.hasMatch Elem.isLoaderScript) = true
  · have hlr : s.lastRead = some true := by
      by_contra hlr
      obtain ⟨h1, h2⟩ := hnot hlr
      have a1 : s.page.document.hasId SCRIPT_ID = false := by simpa [Document.hasId] using h1
      have a2 : s.page.document.hasMatch Elem.isLoaderScript = false :=
        (Document.hasMatch_eq_false_iff _ _).2 h2
      rw [a1, a2] at hin
      exact absurd hin (by decide)
    rw [if_pos hin]
    exact ⟨hcs, hcn, fun _ => hyes hlr, fun hne => absurd rfl hne⟩
  · rw [if_neg hin]
    have hs : SCRIPT_ID ∉ s.page.document.ids := by
      intro hmem
      apply hin
      simp [Document.hasId, hmem]
    simp only [Document.ids, List.mem_append, not_or] at hs
    have hne : ¬ SCRIPT_ID = NOSCRIPT_ID := by decide
    have c1 : (s.page.document.appendToHead scriptNode).ids.count SCRIPT_ID = 1 := by
      rw [appendToHead_scriptNode_ids]
      simp [List.count_eq_zero_of_not_mem hs.1, List.count_eq_zero_of_not_mem hs.2]
    have c2 : (s.page.document.appendToHead scriptNode).ids.count NOSCRIPT_ID ≤ 1 := by
      rw [appendToHead_scriptNode_ids]
      simpa [Document.ids, List.count_cons, hne] using hcn
    refine ⟨?_, ?_, ?_, fun hne => absurd rfl hne⟩
    · rw [Document.withFallback_count_script, c1]
    · exact Document.withFallback_count_noscript _ c2
    · intro _
      apply List.count_pos_iff.1
      rw [Document.withFallback_count_script, c1]
      exact Nat.one_pos

/-- The removal path keeps the tag script in step with a denied read. -/
theorem removeGtm_scriptSynced (s : Settled) (h : ScriptSynced s) :
    ScriptSynced { page := removeGtm s.page, lastRead := some false } := by
  obtain ⟨hcs, hcn, _, _⟩ := h
  have hc := removed_document_clean s.page.document hcs hcn
  rw [clean_iff] at hc
  obtain ⟨h1, h2, h3⟩ := hc
  simp only [ScriptSynced, removeGtm_document]
  refine ⟨?_, ?_, fun hh => absurd hh (by decide), fun _ => ⟨h1, no_loader_of_no_gtm h2⟩⟩
  · rw [List.count_eq_zero_of_not_mem h1]
    exact Nat.zero_le _
  · rw [List.count_eq_zero_of_not_mem h3]
    exact Nat.zero_le _

theorem applyConsentState_cases (read : StorageRead) (p : Page) :
    (isGranted read = true ∧ applyConsentState read p = loadGtm p) ∨
      (isGranted read = false ∧ applyConsentState read p = removeGtm p) := by
  by_cases h : safeGetLocalStorage read = some CONSENT_GRANTED
  · left
    simp [isGranted, applyConsentState, h]
  · right
    simp [isGranted, applyConsentState, h]

theorem fire_scriptSynced (read : StorageRead) (s : Settled) (l : Listener)
    (h : ScriptSynced s) : ScriptSynced (fire read s l) := by
  cases l with
  | applyConsentState =>
    simp only [fire, Listener.run, if_true]
    rcases applyConsentState_cases read s.page with ⟨hg, he⟩ | ⟨hg, he⟩
    · rw [hg, he]
      exact loadGtm_scriptSynced s h
    · rw [hg, he]
      exact removeGtm_scriptSynced s h
  | deferredNoscript =>
    obtain ⟨hcs, hcn, hyes, hnot⟩ := h
    have hl : (if Listener.deferredNoscript = Listener.applyConsentState then
        some (isGranted read) else s.lastRead) = s.lastRead := by
      rw [if_neg (by decide)]
    simp only [fire, Listener.run, ScriptSynced, deferredNoscript_document, hl]
    refine ⟨?_, ?_, ?_, ?_⟩
    · rw [Document.withFallback_count_script]
      exact hcs
    · exact Document.withFallback_count_noscript _ hcn
    · intro hlr
      apply List.count_pos_iff.1
      rw [Document.withFallback_count_script]
      exact List.count_pos_iff.2 (hyes hlr)
    · intro hlr
      obtain ⟨h1, h2⟩ := hnot hlr
      refine ⟨?_, Document.withFallback_no_loader _ h2⟩
      intro hmem
      have := List.count_pos_iff.2 hmem
      rw [Document.withFallback_count_script] at this
      exact h1 (List.count_pos_iff.1 this)

theorem fire_fallbackSynced (read : StorageRead) (s : Settled)
    (h : ScriptSynced s) (hf : FallbackSynced s) :
    FallbackSynced (fire read s Listener.applyConsentState) := by
  obtain ⟨hcs, hcn, hyes, hnot⟩ := h
  obtain ⟨hb, hpend, hiff⟩ := hf
  simp only [fire, Listener.run, if_true]
  rcases applyConsentState_cases read s.page with ⟨hg, he⟩ | ⟨hg, he⟩
  · rw [hg, he]
    refine ⟨?_, ?_, ?_⟩
    · show (loadGtm s.page).document.body.isSome = true
      rw [loadGtm_body_isSome]
      exact hb
    · show Listener.deferredNoscript ∉ (loadGtm s.page).onDomContentLoaded
      rw [loadGtm_listeners _ hb]
      exact hpend
    · show NOSCRIPT_ID ∈ (loadGtm s.page).document.ids ↔ some true = some true
      refine ⟨fun _ => rfl, fun _ => ?_⟩
      rw [loadGtm_document]
      by_cases hin : (s.page.document.hasId SCRIPT_ID ||
          s.page.document.hasMatch Elem.isLoaderScript) = true
      · have hlr : s.lastRead = some true := by
          by_contra hlr
          obtain ⟨h1, h2⟩ := hnot hlr
          have a1 : s.page.document.hasId SCRIPT_ID = false := by
            simpa [Document.hasId] using h1
          have a2 : s.page.document.hasMatch Elem.isLoaderScript = false :=
            (Document.hasMatch_eq_false_iff _ _).2 h2
          rw [a1, a2] at hin
          exact absurd hin (by decide)
        rw [if_pos hin]
        exact hiff.2 hlr
      · rw [if_neg hin]
        exact Document.withFallback_mem _ hb
  · rw [hg, he]
    have hc := removed_document_clean s.page.document hcs hcn
    rw [clean_iff] at hc
    refine ⟨?_, ?_, ?_⟩
    · show (removeGtm s.page).document.body.isSome = true
      rw [removeGtm_body_isSome]
      exact hb
    · show Listener.deferredNoscript ∉ (removeGtm s.page).onDomContentLoaded
      rw [removeGtm_listeners]
      exact hpend
    · show NOSCRIPT_ID ∈ (removeGtm s.page).document.ids ↔ some false = some true
      rw [removeGtm_document]
      exact ⟨fun hm => absurd hm hc.2.2, fun hh => absurd hh (by decide)⟩

theorem prepare_ids (e : Event) (p : Page) : (e.prepare p).document.ids = p.document.ids := by
  cases e with
  | storage key read => rfl
  | visibilitychange hidden read => rfl
  | clock t => rfl
  | domContentLoaded read =>
    simp only [Event.prepare]
    split
    · cases h : p.document.body <;> simp [Document.ids, h]
    · rfl
  | bodyParsed =>
    simp only [Event.prepare]
    split
    · rename_i hc
      simp only [Bool.and_eq_true, Option.isNone_iff_eq_none] at hc
      simp [Document.ids, hc.2]
    · rfl

theorem prepare_elements (e : Event) (p : Page) :
    (e.prepare p).document.elements = p.document.elements := by
  cases e with
  | storage key read => rfl
  | visibilitychange hidden read => rfl
  | clock t => rfl
  | domContentLoaded read =>
    simp only [Event.prepare]
    split
    · cases h : p.document.body <;> simp [Document.elements, h]
    · rfl
  | bodyParsed =>
    simp only [Event.prepare]
    split
    · rename_i hc
      simp only [Bool.and_eq_true, Option.isNone_iff_eq_none] at hc
      simp [Document.elements, hc.2]
    · rfl

theorem prepare_body_isSome (e : Event) (p : Page) (h : p.document.body.isSome = true) :
    (e.prepare p).document.body.isSome = true := by
  cases e with
  | storage key read => exact h
  | visibilitychange hidden read => exact h
  | clock t => exact h
  | domContentLoaded read =>
    simp only [Event.prepare]
    split
    · rfl
    · exact h
  | bodyParsed =>
    simp only [Event.prepare]
    split
    · rfl
    · exact h

theorem prepare_listeners (e : Event) (p : Page) (l : Listener)
    (h : l ∉ p.onDomContentLoaded) : l ∉ (e.prepare p).onDomContentLoaded := by
  cases e with
  | storage key read => exact h
  | visibilitychange hidden read => exact h
  | clock t => exact h
  | domContentLoaded read =>
    simp only [Event.prepare]
    split
    · simp
    · exact h
  | bodyParsed =>
    simp only [Event.prepare]
    split
    · exact h
    · exact h

theorem listeners_no_deferred (e : Event) (p : Page)
    (h : Listener.deferredNoscript ∉ p.onDomContentLoaded) :
    Listener.deferredNoscript ∉ e.listeners p := by
  cases e with
  | storage key read =>
    simp only [Event.listeners]
    split <;> simp
  | visibilitychange hidden read =>
    simp only [Event.listeners]
    split <;> simp
  | clock t => simp [Event.listeners]
  | bodyParsed => simp [Event.listeners]
  | domContentLoaded read =>
    simp only [Event.listeners]
    split
    · exact h
    · simp

theorem foldl_fire_scriptSynced (read : StorageRead) (ls : List Listener) (s : Settled)
    (h : ScriptSynced s) : ScriptSynced (ls.foldl (fire read) s) := by
  induction ls generalizing s with
  | nil => exact h
  | cons l ls ih => exact ih _ (fire_scriptSynced read s l h)

theorem foldl_fire_fallbackSynced (read : StorageRead) (ls : List Listener) (s : Settled)
    (hl : Listener.deferredNoscript ∉ ls) (h : ScriptSynced s) (hf : FallbackSynced s) :
    FallbackSynced (ls.foldl (fire read) s) := by
  induction ls generalizing s with
  | nil => exact hf
  | cons l ls ih =>
    simp only [List.mem_cons, not_or] at hl
    have hl1 : l = Listener.applyConsentState := by
      cases l with
      | applyConsentState => rfl
      | deferredNoscript => exact absurd rfl hl.1
    subst hl1
    exact ih _ hl.2 (fire_scriptSynced read s _ h) (fire_fallbackSynced read s h hf)

theorem step_scriptSynced (s : Settled) (e : Event) (h : ScriptSynced s) :
    ScriptSynced (step s e) := by
  apply foldl_fire_scriptSynced
  simpa [ScriptSynced, prepare_ids, prepare_elements] using h

theorem step_fallbackSynced (s : Settled) (e : Event) (h : ScriptSynced s)
    (hf : FallbackSynced s) : FallbackSynced (step s e) := by
  apply foldl_fire_fallbackSynced
  · exact listeners_no_deferred e s.page hf.2.1
  · simpa [ScriptSynced, prepare_ids, prepare_elements] using h
  · exact ⟨prepare_body_isSome e s.page hf.1, prepare_listeners e s.page _ hf.2.1,
      by simpa [prepare_ids] using hf.2.2⟩

theorem run_scriptSynced (es : List Event) (s : Settled) (h : ScriptSynced s) :
    ScriptSynced (run s es) := by
  induction es generalizing s with
  | nil => exact h
  | cons e es ih => exact ih _ (step_scriptSynced s e h)

theorem run_fallbackSynced (es : List Event) (s : Settled) (h : ScriptSynced s)
    (hf : FallbackSynced s) : FallbackSynced (run s es) := by
  induction es generalizing s with
  | nil => exact hf
  | cons e es ih => exact ih _ (step_scriptSynced s e h) (step_fallbackSynced s e h hf)

theorem initial_scriptSynced (p : Page) (ls : List Listener) (hc : p.document.clean = true) :
    ScriptSynced
      { page := { p with gtag := initGtag p.gtag, onDomContentLoaded := ls },
        lastRead := none } := by
  obtain ⟨hs, hg, hn⟩ := (clean_iff _).1 hc
  refine ⟨?_, ?_, fun hh => Option.noConfusion hh, fun _ => ⟨hs, no_loader_of_no_gtm hg⟩⟩
  · show p.document.ids.count SCRIPT_ID ≤ 1
    rw [List.count_eq_zero_of_not_mem hs]
    exact Nat.zero_le _
  · show p.document.ids.count NOSCRIPT_ID ≤ 1
    rw [List.count_eq_zero_of_not_mem hn]
    exact Nat.zero_le _

theorem initial_fallbackSynced (p : Page) (ls : List Listener) (hc : p.document.clean = true)
    (hb : p.document.body.isSome = true) (hls : Listener.deferredNoscript ∉ ls) :
    FallbackSynced
      { page := { p with gtag := initGtag p.gtag, onDomContentLoaded := ls },
        lastRead := none } :=
  ⟨hb, hls, ⟨fun hm => absurd hm ((clean_iff _).1 hc).2.2, fun hh => Option.noConfusion hh⟩⟩

theorem start_scriptSynced (read : StorageRead) (p : Page) (hc : p.document.clean = true) :
    ScriptSynced (start read p) := by
  simp only [start]
  split
  · exact initial_scriptSynced p _ hc
  · exact fire_scriptSynced read _ _ (initial_scriptSynced p p.onDomContentLoaded hc)

theorem start_fallbackSynced (read : StorageRead) (p : Page) (hc : p.document.clean = true)
    (hl : p.onDomContentLoaded = []) (hb : p.document.body.isSome = true) :
    FallbackSynced (start read p) := by
  simp only [start]
  split
  · exact initial_fallbackSynced p _ hc hb (by simp [hl])
  · exact fire_fallbackSynced read _ (initial_scriptSynced p _ hc)
      (initial_fallbackSynced p _ hc hb (by simp [hl]))

/-- C4 (amended): start from a page with no tag artifact and no listener of the script, and
let any sequence of storage, visibility, parsing and clock events follow the
evaluation of the script. After every event, an element with the id of the tag
script is in the document exactly when the last read of the flag was granted, and
the document holds at most one fallback element; when the body existed at the
evaluation of the script, an element with the id of the fallback element is in
the document exactly when the last read of the flag was granted. -/
theorem settled_presence_matches_last_read (read : StorageRead) (p : Page)
    (events : List Event)
    (hc : p.document.clean = true) (hl : p.onDomContentLoaded = []) :
    ((run (start read p) events).page.document.hasId SCRIPT_ID = true ↔
        (run (start read p) events).lastRead = some true) ∧
      (run (start read p) events).page.document.ids.count NOSCRIPT_ID ≤ 1 ∧
      (p.document.body.isSome = true →
        ((run (start read p) events).page.document.hasId NOSCRIPT_ID = true ↔
          (run (start read p) events).lastRead = some true)) := by
  have hS := run_scriptSynced events _ (start_scriptSynced read p hc)
  refine ⟨?_, hS.2.1, ?_⟩
  · rw [Document.hasId_eq_true_iff]
    refine ⟨fun hm => ?_, hS.2.2.1⟩
    by_contra hne
    exact (hS.2.2.2 hne).1 hm
  · intro hb
    have hF := run_fallbackSynced events _ (start_scriptSynced read p hc)
      (start_fallbackSynced read p hc hl hb)
    rw [Document.hasId_eq_true_iff]
    exact hF.2.2

theorem settled_presence_matches_last_read_witness :
    (run (start denied plainPage)
        [Event.storage (some "cookieConsent") granted, Event.clock 5,
         Event.visibilitychange false denied,
         Event.storage (some "other") granted]).lastRead = some false ∧
      ((run (start denied plainPage)
        [Event.storage (some "cookieConsent") granted, Event.clock 5,
         Event.visibilitychange false denied,
         Event.storage (some "other") granted]).page.document.hasId SCRIPT_ID = true ↔
        (run (start denied plainPage)
          [Event.storage (some "cookieConsent") granted, Event.clock 5,
           Event.visibilitychange false denied,
           Event.storage (some "other") granted]).lastRead = some true) :=
  ⟨by decide, (settled_presence_matches_last_read denied plainPage _ (by decide) rfl).1⟩

/-- C4 (counterexample): the script is evaluated while the page is loading and has no body;
a storage event with the flag granted follows. The handler has completed, the last
read is granted and the tag script is in the document, but no fallback element
is: its insertion waits for `DOMContentLoaded`. -/
theorem granted_before_body_has_no_fallback :
    (run (start denied earlyPage) [Event.storage (some "cookieConsent") granted]).lastRead =
        some true ∧
      (run (start denied earlyPage)
        [Event.storage (some "cookieConsent") granted]).page.document.hasId SCRIPT_ID = true ∧
      (run (start denied earlyPage)
        [Event.storage (some "cookieConsent") granted]).page.document.hasId NOSCRIPT_ID =
          false := by
  decide

/-- The insertion of the fallback element that was deferred while the flag was granted
still happens at `DOMContentLoaded` when the flag has been denied in between: the
last read is denied, the tag script is gone, and the fallback element is in the
document. -/
theorem stale_deferred_insertion :
    (run (start denied earlyPage)
        [Event.storage (some "cookieConsent") granted,
         Event.storage (some "cookieConsent") denied,
         Event.domContentLoaded denied]).lastRead = some false ∧
      (run (start denied earlyPage)
        [Event.storage (some "cookieConsent") granted,
         Event.storage (some "cookieConsent") denied,
         Event.domContentLoaded denied]).page.document.hasId SCRIPT_ID = false ∧
      (run (start denied earlyPage)
        [Event.storage (some "cookieConsent") granted,
         Event.storage (some "cookieConsent") denied,
         Event.domContentLoaded denied]).page.document.hasId NOSCRIPT_ID = true := by
  decide

end AhasendGtm
